import Mathlib

/-!
Verification development for the ScriptScreen video-editor backend
(src/backend/models.py, src/backend/renderer.py, src/backend/main.py).

The timeline model and the timeline-to-graph compilation of
render_project are embedded shallowly: times, percentages, volumes and
speeds are rationals, file paths are strings, and the filesystem and
ffprobe results are an explicit environment (which files exist, which
have an audio stream).  The emitted ffmpeg graph is modelled by the
list of video segments (clip segments and black filler segments), the
list of processed audio segments, and the final mixing decision, each
carrying exactly the numeric parameters the source computes.
-/

/-- Environment: which source files exist on disk (os.path.exists) and
which of them contain an audio stream (has_audio_stream/ffprobe). -/
structure Env where
  files : List String
  audioFiles : List String
deriving DecidableEq

/-- Model of uuid.uuid4(): the n-th value drawn from the generator.
Distinct draws give distinct strings. -/
def uuidOf (n : Nat) : String := "uuid-" ++ toString n

/-- models.py line 48: the default for Project.id is str(uuid.uuid4())
evaluated ONCE, when the class body is executed at import time.  We
model it as the first draw from the uuid stream, fixed thereafter. -/
def defaultProjectId : String := uuidOf 0

/-- models.py Clip. -/
structure Clip where
  id : String
  track_id : String
  source_path : String
  start_time : ℚ
  end_time : ℚ
  source_start : ℚ
  type : String
  volume : ℚ := 1
  speed : ℚ := 1
  z_index : ℤ := 0
  linked_id : Option String := none
deriving DecidableEq

/-- models.py TextOverlay. -/
structure TextOverlay where
  id : String
  text : String
  start_time : ℚ
  end_time : ℚ
  x : ℚ := 50
  y : ℚ := 10
  font_size : ℤ := 48
  font_family : String := "Sans"
  color : String := "white"
deriving DecidableEq

/-- models.py ShapeOverlay.  width is a positive pixel count. -/
structure ShapeOverlay where
  id : String
  name : String := ""
  type : String
  start_time : ℚ
  end_time : ℚ
  x1 : ℚ := 10
  y1 : ℚ := 10
  x2 : ℚ := 90
  y2 : ℚ := 10
  color : String := "white"
  width : ℕ := 3
deriving DecidableEq

/-- models.py Track. -/
structure Track where
  id : String
  type : String
  clips : List Clip := []
deriving DecidableEq

/-- models.py Project.  A Project built without an explicit id receives
the module-level default defaultProjectId. -/
structure Project where
  id : String := defaultProjectId
  tracks : List Track := []
  duration : ℚ := 0
  text_overlays : List TextOverlay := []
  shape_overlays : List ShapeOverlay := []
deriving DecidableEq

/-- Python's max on two numbers, written executably (the lattice max on
the rationals does not reduce inside the kernel). -/
def qmax (a b : ℚ) : ℚ := if a < b then b else a

/-- renderer.py line 33: first track whose type is "video". -/
def videoTrack (p : Project) : Option Track :=
  p.tracks.find? (fun t => t.type == "video")

/-- renderer.py line 36: every track of type "audio" or "av". -/
def audioTracksOf (p : Project) : List Track :=
  p.tracks.filter (fun t => t.type == "audio" || t.type == "av")

/-- renderer.py line 46: sorted(clips, key=lambda c: c.start_time).
Python's sort is stable; insertion sort on a non-strict key order is
the canonical stable sort. -/
def sortedClips (tr : Track) : List Clip :=
  List.insertionSort (fun a b => a.start_time ≤ b.start_time) tr.clips

/-- One node of the compiled video chain: either a black 1920x1080
filler of a given duration (lines 57-63, 114-119, 129) or a clip
segment carrying the parameters of the trim/setpts filters built at
lines 82-89: source path, trim start, trim duration, setpts speed. -/
inductive VSeg where
  | filler (d : ℚ)
  | clipSeg (src : String) (trimStart : ℚ) (trimLen : ℚ) (speed : ℚ)
deriving DecidableEq

/-- renderer.py lines 70-89: the video segment emitted for one clip.
duration = end_time - start_time; source_duration = duration * speed;
trim start=source_start duration=source_duration; setpts divides by
speed. -/
def clipVSeg (c : Clip) : VSeg :=
  .clipSeg c.source_path c.source_start ((c.end_time - c.start_time) * c.speed) c.speed

/-- renderer.py lines 52-63: the filler emitted before a clip when the
cursor lags its start by more than the 0.01s threshold. -/
def gapSegs (t : ℚ) (c : Clip) : List VSeg :=
  if t < c.start_time then
    if 0.01 < c.start_time - t then [.filler (c.start_time - t)] else []
  else []

/-- renderer.py lines 49-96: the main loop over the sorted clips of the
video track.  State is the cursor current_time; output is the list
video_concat_parts.  A clip whose source file is missing is skipped
(warning printed) after its gap filler was already emitted, and the
cursor is NOT advanced for it. -/
def processClips (env : Env) : ℚ → List Clip → ℚ × List VSeg
  | t, [] => (t, [])
  | t, c :: cs =>
    let gs := gapSegs t c
    if c.source_path ∈ env.files then
      let r := processClips env c.end_time cs
      (r.1, gs ++ clipVSeg c :: r.2)
    else
      let r := processClips env t cs
      (r.1, gs ++ r.2)

/-- renderer.py lines 45-96: process the video track if present and
non-empty; returns (final current_time, video_concat_parts).  When the
track is absent or clipless the loop never runs and current_time is
never consulted (we return 0). -/
def videoParts (env : Env) (p : Project) : ℚ × List VSeg :=
  match videoTrack p with
  | some tr => if tr.clips = [] then (0, []) else processClips env 0 (sortedClips tr)
  | none => (0, [])

/-- renderer.py lines 43-50 and 99-102: max_duration is the running
maximum of clip end_times over the (sorted) video-track clips -- taken
before the source-existence check, so skipped clips still count -- and
then over every clip of every audio-bearing track. -/
def videoMaxEnd (p : Project) : ℚ :=
  match videoTrack p with
  | some tr => (sortedClips tr).foldl (fun m c => qmax m c.end_time) 0
  | none => 0

/-- renderer.py lines 99-102 continued: fold the audio-bearing tracks'
clip end_times on top of the video running maximum. -/
def maxDuration (p : Project) : ℚ :=
  (audioTracksOf p).foldl (fun m tr => tr.clips.foldl (fun m c => qmax m c.end_time) m)
    (videoMaxEnd p)

/-- renderer.py lines 109-119: the tail filler appended when
max_duration exceeds the video cursor by more than the threshold. -/
def tailFiller (t maxD : ℚ) : List VSeg :=
  if t < maxD then
    if 0.01 < maxD - t then [.filler (maxD - t)] else []
  else []

/-- renderer.py lines 104-131: the full compiled video chain.  Some
parts: concat of the parts plus the tail filler.  No parts but positive
max_duration: one full-length black filler.  Otherwise render_project
returns None. -/
def mainVideo (env : Env) (p : Project) : Option (List VSeg) :=
  let v := videoParts env p
  if v.2 ≠ [] then some (v.2 ++ tailFiller v.1 (maxDuration p))
  else if 0 < maxDuration p then some [.filler (maxDuration p)]
  else none

/-- Timeline duration of one emitted video segment: a filler lasts its
declared duration; a clip segment is trimmed to trimLen seconds of
source and its PTS are divided by speed. -/
def vsegDur : VSeg → ℚ
  | .filler d => d
  | .clipSeg _ _ len sp => len / sp

/-- Duration of the whole compiled video chain, when one exists. -/
def renderedDuration (env : Env) (p : Project) : Option ℚ :=
  (mainVideo env p).map (fun segs => (segs.map vsegDur).sum)

/-- The spec's effective duration: the maximum clip end_time over every
clip of every track of the project (0 when there are none). -/
def maxEndAll (p : Project) : ℚ :=
  p.tracks.foldl (fun m tr => tr.clips.foldl (fun m c => qmax m c.end_time) m) 0

/-- Python's int() truncates toward zero. -/
def qtrunc (x : ℚ) : ℤ := if 0 ≤ x then ⌊x⌋ else ⌈x⌉

/-- One processed audio segment, carrying the parameters of the
filters built at renderer.py lines 146-169: atrim start/duration,
atempo speed, volume gain, and the adelay in whole milliseconds
(delay_ms = int(start_time * 1000), applied only when positive). -/
structure AudioSeg where
  src : String
  trimStart : ℚ
  trimLen : ℚ
  speed : ℚ
  volume : ℚ
  delayMs : ℤ
deriving DecidableEq

/-- renderer.py lines 136-171: process one clip of an audio-bearing
track.  Skips (returns none) when the source file is missing or has no
audio stream; otherwise emits the processed segment. -/
def processAudioClip (env : Env) (c : Clip) : Option AudioSeg :=
  if c.source_path ∈ env.files then
    if c.source_path ∈ env.audioFiles then
      some { src := c.source_path
             trimStart := c.source_start
             trimLen := (c.end_time - c.start_time) * c.speed
             speed := c.speed
             volume := c.volume
             delayMs := qtrunc (c.start_time * 1000) }
    else none
  else none

/-- renderer.py lines 136-171: all surviving audio segments, in track
then clip order (tracks are not sorted for audio). -/
def audioOverlays (env : Env) (p : Project) : List AudioSeg :=
  (audioTracksOf p).flatMap (fun tr => tr.clips.filterMap (processAudioClip env))

/-- Length in seconds of one processed audio segment: the atrim keeps
trimLen seconds, atempo (applied only when speed is not 1) divides the
length by speed, volume and aresample preserve it, and the adelay
prepends delayMs milliseconds when positive. -/
def audioSegLen (a : AudioSeg) : ℚ :=
  (if 0 < a.delayMs then (a.delayMs : ℚ) / 1000 else 0) +
  (if a.speed = 1 then a.trimLen else a.trimLen / a.speed)

/-- The final audio of the output: either a single segment used
directly or an amix node over two or more segments. -/
inductive MixedAudio where
  | single (a : AudioSeg)
  | amix (segs : List AudioSeg)
deriving DecidableEq

/-- renderer.py lines 279-284: more than one overlay is combined with
amix (duration=longest); exactly one is used directly; none leaves
final_audio = None. -/
def finalAudio : List AudioSeg → Option MixedAudio
  | [] => none
  | [a] => some (.single a)
  | a :: b :: r => some (.amix (a :: b :: r))

/-- Length of the final audio stream: amix with duration=longest has
the length of its longest input. -/
def mixedLen : MixedAudio → ℚ
  | .single a => audioSegLen a
  | .amix [] => 0
  | .amix (a :: r) => r.foldl (fun m b => qmax m (audioSegLen b)) (audioSegLen a)

/-- renderer.py lines 286-294: the streams handed to ffmpeg.output --
the composed video plus the final audio when there is one.  None when
render_project bailed out (returned None) before reaching the output
stage. -/
def renderStreams (env : Env) (p : Project) : Option (List VSeg × Option MixedAudio) :=
  (mainVideo env p).map (fun v => (v, finalAudio (audioOverlays env p)))

/-- Files written by render_project: out.run writes output_path, and is
reached exactly when render_project does not return None early. -/
def renderWrites (env : Env) (p : Project) (outputPath : String) : List String :=
  match renderStreams env p with
  | none => []
  | some _ => [outputPath]

/-- Results of the two FastAPI endpoints: a JSON body or an
HTTPException. -/
inductive ApiResp where
  | json (url : String) (status : String)
  | httpError (code : ℕ) (detail : String)
deriving DecidableEq

/-- main.py line 71: any(len(t.clips) > 0 for t in project.tracks). -/
def hasClips (p : Project) : Bool :=
  p.tracks.any (fun t => !t.clips.isEmpty)

/-- main.py lines 65-82 (/preview): empty check, then render; None
from the renderer yields status "error", success yields the preview
URL with a fresh cache-busting token. -/
def generatePreview (env : Env) (p : Project) (cacheToken : String) : ApiResp :=
  if !hasClips p then .json "" "empty"
  else
    match renderStreams env p with
    | none => .json "" "error"
    | some _ => .json ("/previews/preview_" ++ p.id ++ ".mp4?t=" ++ cacheToken) "ready"

/-- main.py lines 84-97 (/export): NO empty-project check; render_project
returning None raises HTTPException(500, "Render failed"). -/
def exportVideo (env : Env) (p : Project) : ApiResp :=
  match renderStreams env p with
  | none => .httpError 500 "Render failed"
  | some _ => .json ("/previews/export_" ++ p.id ++ ".mp4") "ready"

/-- Files written by the /preview endpoint. -/
def previewWrites (env : Env) (p : Project) : List String :=
  if !hasClips p then []
  else renderWrites env p ("media/previews/preview_" ++ p.id ++ ".mp4")

/-- Files written by the /export endpoint. -/
def exportWrites (env : Env) (p : Project) : List String :=
  renderWrites env p ("media/previews/export_" ++ p.id ++ ".mp4")

/-- main.py line 68: the preview output filename for a project. -/
def previewFilename (p : Project) : String := "preview_" ++ p.id ++ ".mp4"

/-- Model of instantiating Project() with no explicit id, threading the
uuid-generator counter: pydantic reuses the class-level default string,
so no fresh uuid is drawn and the counter is unchanged. -/
def newDefaultProject (counter : ℕ) : Project × ℕ :=
  ({ id := defaultProjectId }, counter)

/-- renderer.py line 187: the drawtext x expression
(w-text_w)*x_pct/100, evaluated at frame width w and text width tw. -/
def textX (xPct w tw : ℚ) : ℚ := (w - tw) * xPct / 100

/-- renderer.py line 188: the drawtext y expression
h-text_h-(h-text_h)*y_pct/100, evaluated at frame height h and text
height th. -/
def textY (yPct h th : ℚ) : ℚ := h - th - (h - th) * yPct / 100

/-- renderer.py lines 242-245: percentage-to-pixel conversion for shape
endpoints, x measured from the left on the 1920-wide canvas. -/
def pxX (pct : ℚ) : ℤ := qtrunc (1920 * pct / 100)

/-- renderer.py lines 242-245: percentage-to-pixel conversion for shape
endpoints, y measured from the bottom, inverted onto the 1080-high
top-left-origin canvas. -/
def pxY (pct : ℚ) : ℤ := qtrunc (1080 - 1080 * pct / 100)

/-- renderer.py lines 249-251: the sample count of the main rasterized
line, max(10, int(line_length / (width * 0.8))).  int() truncates, and
for a nonnegative real that is the floor; with L2 the squared pixel
length, floor(sqrt(L2)/(0.8 w)) = floor(sqrt(100 L2))/(8 w) =
Nat.sqrt(100 L2) / (8 w) in exact integer arithmetic. -/
def numSegments (dx dy : ℤ) (w : ℕ) : ℕ :=
  max 10 (Nat.sqrt (100 * (dx.natAbs ^ 2 + dy.natAbs ^ 2)) / (8 * w))

/-- Modelled from the spec's words, for comparison with numSegments
only: "Choose a segment count for the rasterized line as
max(10, round(length / (width x 0.8)))". -/
def specNumSegments (len : ℚ) (w : ℕ) : ℤ :=
  max 10 (round (len / (w * (8 / 10))))

/-- Python's int() on a real value truncates toward zero. -/
noncomputable def rtrunc (x : ℝ) : ℤ := if 0 ≤ x then ⌊x⌋ else ⌈x⌉

/-- renderer.py line 261: math.atan2(dy, dx), the angle of the main
segment.  Complex.arg of dx + dy*I has exactly the atan2 semantics
(range (-pi, pi], and 0 at the origin). -/
noncomputable def shapeAngle (dx dy : ℤ) : ℝ := Complex.arg ⟨(dx : ℝ), (dy : ℝ)⟩

/-- One call to draw_line_with_boxes: integer pixel endpoints, stroke
width, and the number of interpolation steps (num_segments). -/
structure RasterSeg where
  x1 : ℤ
  y1 : ℤ
  x2 : ℤ
  y2 : ℤ
  width : ℕ
  samples : ℕ
deriving DecidableEq

/-- renderer.py lines 249-254: the main line of a shape overlay. -/
def mainRaster (s : ShapeOverlay) : RasterSeg :=
  { x1 := pxX s.x1, y1 := pxY s.y1, x2 := pxX s.x2, y2 := pxY s.y2,
    width := s.width,
    samples := numSegments (pxX s.x2 - pxX s.x1) (pxY s.y2 - pxY s.y1) s.width }

/-- renderer.py lines 257-277: one arrowhead stroke, from the terminal
endpoint toward the point at distance width*5 in direction angle+rot,
with integer-truncated coordinates and a fixed sample count of 8. -/
noncomputable def arrowRaster (s : ShapeOverlay) (rot : ℝ) : RasterSeg :=
  let x2 := pxX s.x2
  let y2 := pxY s.y2
  let ang := shapeAngle (x2 - pxX s.x1) (y2 - pxY s.y1)
  let size : ℝ := (s.width : ℝ) * 5
  { x1 := x2, y1 := y2,
    x2 := rtrunc ((x2 : ℝ) + size * Real.cos (ang + rot)),
    y2 := rtrunc ((y2 : ℝ) + size * Real.sin (ang + rot)),
    width := s.width, samples := 8 }

/-- renderer.py lines 228-277: the list of rasterized strokes drawn for
one shape overlay: the main line, plus for type "arrow" the two
arrowhead strokes at angle +pi*0.8 and angle -pi*0.8. -/
noncomputable def shapeSegs (s : ShapeOverlay) : List RasterSeg :=
  if s.type = "arrow" then
    [mainRaster s, arrowRaster s (Real.pi * 0.8), arrowRaster s (-(Real.pi * 0.8))]
  else [mainRaster s]

/-- One drawbox fill operation (renderer.py lines 216-225). -/
structure Box where
  x : ℤ
  y : ℤ
  w : ℕ
  h : ℕ
deriving DecidableEq

/-- renderer.py lines 211-225: the i-th box of a rasterized stroke:
t = i/n, point truncated to integer pixels, box cornered at the point
minus half the thickness, clamped at zero. -/
def boxAt (x1 y1 x2 y2 : ℤ) (thickness : ℕ) (n : ℕ) (i : ℕ) : Box :=
  let t : ℚ := (i : ℚ) / (n : ℚ)
  let x := qtrunc ((x1 : ℚ) + t * ((x2 : ℚ) - (x1 : ℚ)))
  let y := qtrunc ((y1 : ℚ) + t * ((y2 : ℚ) - (y1 : ℚ)))
  let half : ℤ := (thickness : ℤ) / 2
  { x := max 0 (x - half), y := max 0 (y - half), w := thickness, h := thickness }

/-- renderer.py lines 209-226: draw_line_with_boxes emits one box per
i in range(num_segments + 1). -/
def drawLineBoxes (x1 y1 x2 y2 : ℤ) (thickness n : ℕ) : List Box :=
  (List.range (n + 1)).map (boxAt x1 y1 x2 y2 thickness n)

/-- The boxes of one rasterized stroke. -/
def rasterBoxes (r : RasterSeg) : List Box :=
  drawLineBoxes r.x1 r.y1 r.x2 r.y2 r.width r.samples

/-- Final cursor value of the video loop when every clip of the list is
actually emitted: the end_time of the last clip (or the initial cursor
for an empty list). -/
def lastEnd : ℚ → List Clip → ℚ
  | t, [] => t
  | _, c :: cs => lastEnd c.end_time cs

/-- Well-formedness of a clip chain relative to a starting cursor: each
clip's source exists, its speed is positive, its window is nonempty,
and it starts either exactly at the cursor or more than the 0.01s gap
threshold after it (so no overlap and no dropped sub-threshold gap). -/
def goodChain (env : Env) : ℚ → List Clip → Bool
  | _, [] => true
  | t, c :: cs =>
    decide (c.source_path ∈ env.files) && decide (0 < c.speed) &&
    decide (c.start_time < c.end_time) &&
    (decide (c.start_time = t) || decide (t + 0.01 < c.start_time)) &&
    goodChain env c.end_time cs

/-- Fold of Python's max over a list of rationals. -/
def foldMax (m : ℚ) (l : List ℚ) : ℚ := l.foldl qmax m

/-- The clip end_times of a list of tracks, in order. -/
def trackEnds (ts : List Track) : List ℚ :=
  ts.flatMap (fun tr => tr.clips.map (fun c => c.end_time))

/-- Concrete fixtures used by witness theorems: two existing video
sources. -/
def envAB : Env := { files := ["a.mp4", "b.mp4"], audioFiles := [] }

def clipA1 : Clip :=
  { id := "A", track_id := "t", source_path := "a.mp4", start_time := 0,
    end_time := 1, source_start := 0, type := "video" }

def clipB3 : Clip :=
  { id := "B", track_id := "t", source_path := "b.mp4", start_time := 2,
    end_time := 3, source_start := 0, type := "video" }

/-- Fixture: a clip played at double speed whose source exists and has
an audio stream. -/
def envS : Env := { files := ["s.mp4"], audioFiles := ["s.mp4"] }

def clipS2 : Clip :=
  { id := "S", track_id := "t", source_path := "s.mp4", start_time := 1,
    end_time := 4, source_start := 5, type := "video", speed := 2 }

/-- Fixtures for the audio-mixing claim: two audio clips whose sources
exist and have audio streams.  clipYfrac starts at a fractional
millisecond (0.0005s); clipYhalf starts at a whole one (0.5s). -/
def envXY : Env := { files := ["x.mp4", "y.mp4"], audioFiles := ["x.mp4", "y.mp4"] }

def clipX0 : Clip :=
  { id := "X", track_id := "t", source_path := "x.mp4", start_time := 0,
    end_time := 1, source_start := 0, type := "audio" }

def clipYfrac : Clip :=
  { id := "Y", track_id := "t", source_path := "y.mp4", start_time := 1/2000,
    end_time := 3/2, source_start := 0, type := "audio" }

def clipYhalf : Clip :=
  { id := "Y", track_id := "t", source_path := "y.mp4", start_time := 1/2,
    end_time := 3/2, source_start := 0, type := "audio" }

def projXY : Project :=
  { id := "p", tracks := [{ id := "t", type := "audio", clips := [clipX0, clipYfrac] }] }

def projXYw : Project :=
  { id := "p", tracks := [{ id := "t", type := "audio", clips := [clipX0, clipYhalf] }] }

/-- The processed audio segments of clipX0 and clipYhalf under envXY,
used by the audio-mixing witness. -/
def audioSegX : AudioSeg :=
  { src := "x.mp4", trimStart := 0, trimLen := 1, speed := 1, volume := 1, delayMs := 0 }

def audioSegYw : AudioSeg :=
  { src := "y.mp4", trimStart := 0, trimLen := 1, speed := 1, volume := 1, delayMs := 500 }

/-- Fixtures for the duration claims: a well-formed two-clip video
project (projW), one with a sub-threshold 0.005s gap (projGap), and one
whose first clip's source file is missing (projMiss). -/
def trackW : Track := { id := "t", type := "video", clips := [clipA1, clipB3] }

def projW : Project := { id := "p", tracks := [trackW] }

def clipBgap : Clip :=
  { id := "B", track_id := "t", source_path := "b.mp4", start_time := 201/200,
    end_time := 2, source_start := 0, type := "video" }

def projGap : Project :=
  { id := "p", tracks := [{ id := "t", type := "video", clips := [clipA1, clipBgap] }] }

def envMiss : Env := { files := ["b.mp4"], audioFiles := [] }

def clipMa : Clip :=
  { id := "A", track_id := "t", source_path := "a.mp4", start_time := 2,
    end_time := 5, source_start := 0, type := "video" }

def clipMb : Clip :=
  { id := "B", track_id := "t", source_path := "b.mp4", start_time := 6,
    end_time := 8, source_start := 0, type := "video" }

def projMiss : Project :=
  { id := "p", tracks := [{ id := "t", type := "video", clips := [clipMa, clipMb] }] }


/-- Fixtures for the shape-overlay claims: a horizontal 495-pixel line
of width 9 (ratio 68.75), and minimal line/arrow shapes. -/
def shapeW : ShapeOverlay :=
  { id := "s", type := "line", start_time := 0, end_time := 1,
    x1 := 0, y1 := 50, x2 := 825/32, y2 := 50, width := 9 }

def shapeLineW : ShapeOverlay :=
  { id := "l", type := "line", start_time := 0, end_time := 1 }

def shapeArrowW : ShapeOverlay :=
  { id := "a", type := "arrow", start_time := 0, end_time := 1 }

/-!
## Basic lemmas
-/

theorem qmax_eq_max (a b : ℚ) : qmax a b = max a b := by
  unfold qmax
  rcases lt_or_le a b with h | h
  · simp [h, max_eq_right h.le]
  · simp [not_lt.mpr h, max_eq_left h]

theorem qmax_left_le (a b : ℚ) : a ≤ qmax a b := by
  rw [qmax_eq_max]; exact le_max_left a b

theorem qmax_right_le (a b : ℚ) : b ≤ qmax a b := by
  rw [qmax_eq_max]; exact le_max_right a b

/-!
## Theorems for the claims
-/

/-- C10: any two Project values constructed without an explicit id get
the identical default id -- the single uuid drawn once when the Project
class is defined -- independently of when each is instantiated (the
generator counter is untouched), so their preview filenames
preview_{project_id}.mp4 collide. -/
theorem C10_default_id_shared (c1 c2 : ℕ) :
    (newDefaultProject c1).1.id = (newDefaultProject c2).1.id ∧
    (newDefaultProject c1).1.id = defaultProjectId ∧
    (newDefaultProject c1).2 = c1 ∧
    previewFilename (newDefaultProject c1).1 = previewFilename (newDefaultProject c2).1 := by
  simp [newDefaultProject, previewFilename]

/-- C9 counterexample: at x=50, y=10 with frame height 1080 and text
height 80, the text's bottom edge ends up 100 pixels above the frame's
bottom edge, while 10% of the frame height is 108 pixels.  The claim
"positioned 10% of the frame height up from the bottom edge, for any
frame dimensions" is therefore false on the code. -/
theorem C9_counterexample :
    textY 10 1080 80 = 900 ∧
    1080 - (textY 10 1080 80 + 80) = 100 ∧
    (1080 : ℚ) * 10 / 100 = 108 ∧
    (100 : ℚ) ≠ 108 := by
  norm_num [textY]

/-- C9 amended: a text overlay with x=50 and y=10 is horizontally
centered (its left and right margins are equal) and its bottom edge
sits 10% of the AVAILABLE height -- frame height minus rendered text
height -- above the bottom edge, for any frame and text dimensions. -/
theorem C9_amended (w h tw th : ℚ) :
    textX 50 w tw = (w - tw) / 2 ∧
    w - (textX 50 w tw + tw) = (w - tw) / 2 ∧
    h - (textY 10 h th + th) = (h - th) * 10 / 100 := by
  refine ⟨?_, ?_, ?_⟩ <;> (simp only [textX, textY]; ring)

theorem foldTracks_nil_clips (m : ℚ) (ts : List Track) (h : ∀ t ∈ ts, t.clips = []) :
    ts.foldl (fun m tr => tr.clips.foldl (fun m c => qmax m c.end_time) m) m = m := by
  induction ts generalizing m with
  | nil => rfl
  | cons t ts ih =>
    have ht : t.clips = [] := h t (List.mem_cons_self t ts)
    simp only [List.foldl_cons, ht, List.foldl_nil]
    exact ih m (fun u hu => h u (List.mem_cons_of_mem t hu))

theorem maxDuration_zero_of_noclips (p : Project) (h : ∀ t ∈ p.tracks, t.clips = []) :
    maxDuration p = 0 := by
  have hm1 : videoMaxEnd p = 0 := by
    unfold videoMaxEnd
    cases hv : videoTrack p with
    | none => rfl
    | some tr =>
      have htr : tr ∈ p.tracks := List.mem_of_find?_eq_some hv
      simp [sortedClips, h tr htr]
  unfold maxDuration
  rw [hm1]
  exact foldTracks_nil_clips 0 (audioTracksOf p)
    (fun t ht => h t (List.mem_of_mem_filter ht))

theorem mainVideo_none_of_noclips (env : Env) (p : Project)
    (h : ∀ t ∈ p.tracks, t.clips = []) : mainVideo env p = none := by
  have hparts : videoParts env p = (0, []) := by
    unfold videoParts
    cases hv : videoTrack p with
    | none => rfl
    | some tr =>
      have htr : tr ∈ p.tracks := List.mem_of_find?_eq_some hv
      simp [h tr htr]
  unfold mainVideo
  rw [hparts, maxDuration_zero_of_noclips p h]
  simp

theorem hasClips_false_of_noclips (p : Project) (h : ∀ t ∈ p.tracks, t.clips = []) :
    hasClips p = false := by
  unfold hasClips
  simp only [List.any_eq_false]
  intro t ht
  simp [h t ht]

/-- C3 counterexample: a project with one clipless video track.  The
/preview endpoint returns the "empty" outcome, but the /export endpoint
-- which has no empty-project check -- runs render_project, gets None,
and raises HTTPException(500, "Render failed"): an error, not an
"empty" outcome. -/
theorem C3_counterexample :
    generatePreview ⟨[], []⟩
      { id := "p", tracks := [{ id := "t", type := "video", clips := [] }] } "tok" =
      .json "" "empty" ∧
    exportVideo ⟨[], []⟩
      { id := "p", tracks := [{ id := "t", type := "video", clips := [] }] } =
      .httpError 500 "Render failed" ∧
    ApiResp.httpError 500 "Render failed" ≠ .json "" "empty" := by
  norm_num +decide [generatePreview, exportVideo, hasClips, renderStreams, mainVideo,
    videoParts, videoTrack, maxDuration, audioTracksOf, sortedClips, List.find?, List.filter]

/-- C3 amended: for every project whose tracks collectively contain
zero clips, /preview returns the "empty" outcome, while /export --
which lacks the empty-project check -- returns an HTTP 500 error
("Render failed"); in both cases no output file is written. -/
theorem C3_empty_project (env : Env) (p : Project) (tok : String)
    (h : ∀ t ∈ p.tracks, t.clips = []) :
    generatePreview env p tok = .json "" "empty" ∧
    exportVideo env p = .httpError 500 "Render failed" ∧
    previewWrites env p = [] ∧
    exportWrites env p = [] := by
  have hmv : mainVideo env p = none := mainVideo_none_of_noclips env p h
  have hrs : renderStreams env p = none := by
    unfold renderStreams
    rw [hmv]
    rfl
  have hhc : hasClips p = false := hasClips_false_of_noclips p h
  refine ⟨?_, ?_, ?_, ?_⟩
  · unfold generatePreview
    rw [hhc]
    rfl
  · unfold exportVideo
    rw [hrs]
  · unfold previewWrites
    rw [hhc]
    rfl
  · unfold exportWrites renderWrites
    rw [hrs]

theorem C3_empty_project_witness :
    generatePreview ⟨["f.mp4"], []⟩ { id := "q", tracks := [] } "tk" = .json "" "empty" ∧
    exportVideo ⟨["f.mp4"], []⟩ { id := "q", tracks := [] } = .httpError 500 "Render failed" ∧
    previewWrites ⟨["f.mp4"], []⟩ { id := "q", tracks := [] } = [] ∧
    exportWrites ⟨["f.mp4"], []⟩ { id := "q", tracks := [] } = [] :=
  C3_empty_project ⟨["f.mp4"], []⟩ { id := "q", tracks := [] } "tk" (by simp)

/-- C4: in the compiled sequence of a video track, between the segments
of two consecutive clips (the earlier one emitted, i.e. its source
exists), the only material is the gap filler computed against the
earlier clip's end_time: exactly one filler of duration
g = later.start_time - earlier.end_time when g > 0.01, and no filler at
all when g <= 0.01 (including abutting clips with g = 0 and overlapping
clips with g < 0). -/
theorem C4_gap_fillers (env : Env) (t0 : ℚ) (c1 c2 : Clip) (rest : List Clip)
    (h1 : c1.source_path ∈ env.files) (h2 : c2.source_path ∈ env.files) :
    (processClips env t0 (c1 :: c2 :: rest)).2 =
      gapSegs t0 c1 ++ clipVSeg c1 ::
        (gapSegs c1.end_time c2 ++ clipVSeg c2 :: (processClips env c2.end_time rest).2) ∧
    (0.01 < c2.start_time - c1.end_time →
      gapSegs c1.end_time c2 = [.filler (c2.start_time - c1.end_time)]) ∧
    (c2.start_time - c1.end_time ≤ 0.01 → gapSegs c1.end_time c2 = []) := by
  refine ⟨?_, ?_, ?_⟩
  · simp [processClips, h1, h2]
  · intro hg
    have hlt : c1.end_time < c2.start_time := by linarith
    unfold gapSegs
    rw [if_pos hlt, if_pos hg]
  · intro hg
    unfold gapSegs
    split
    · rw [if_neg (by linarith)]
    · rfl

theorem C4_gap_fillers_witness :
    ("a.mp4" ∈ envAB.files) ∧ ("b.mp4" ∈ envAB.files) ∧
    ((processClips envAB 0 [clipA1, clipB3]).2 =
      gapSegs 0 clipA1 ++ clipVSeg clipA1 ::
        (gapSegs clipA1.end_time clipB3 ++ clipVSeg clipB3 ::
          (processClips envAB clipB3.end_time []).2)) := by
  refine ⟨by simp [envAB], by simp [envAB], ?_⟩
  exact (C4_gap_fillers envAB 0 clipA1 clipB3 [] (by simp [envAB, clipA1])
    (by simp [envAB, clipB3])).1

/-- C6: for every clip whose source exists, the segment emitted on the
video path trims the source starting at source_start for exactly
(end_time - start_time) * speed seconds (trim start=source_start,
duration=duration*speed), the audio path applies the identical atrim
window, and in particular a clip with speed = 2 consumes exactly
2*(end_time - start_time) seconds of source material. -/
theorem C6_trim_consumption (env : Env) (t : ℚ) (c : Clip) (cs : List Clip)
    (hex : c.source_path ∈ env.files) :
    (processClips env t (c :: cs)).2 =
      gapSegs t c ++ clipVSeg c :: (processClips env c.end_time cs).2 ∧
    clipVSeg c = .clipSeg c.source_path c.source_start
      ((c.end_time - c.start_time) * c.speed) c.speed ∧
    (∀ a, processAudioClip env c = some a →
      a.trimStart = c.source_start ∧ a.trimLen = (c.end_time - c.start_time) * c.speed) ∧
    (c.speed = 2 →
      (c.end_time - c.start_time) * c.speed = 2 * (c.end_time - c.start_time)) := by
  refine ⟨?_, rfl, ?_, ?_⟩
  · simp [processClips, hex]
  · intro a ha
    unfold processAudioClip at ha
    split_ifs at ha
    cases ha
    exact ⟨rfl, rfl⟩
  · intro h
    rw [h]
    ring

theorem C6_trim_consumption_witness :
    ("s.mp4" ∈ envS.files) ∧
    ((processClips envS 0 [clipS2]).2 =
      gapSegs 0 clipS2 ++ clipVSeg clipS2 :: (processClips envS clipS2.end_time []).2) ∧
    clipVSeg clipS2 = .clipSeg clipS2.source_path clipS2.source_start
      ((clipS2.end_time - clipS2.start_time) * clipS2.speed) clipS2.speed ∧
    (clipS2.end_time - clipS2.start_time) * clipS2.speed =
      2 * (clipS2.end_time - clipS2.start_time) := by
  have h := C6_trim_consumption envS 0 clipS2 [] (by simp [envS, clipS2])
  exact ⟨by simp [envS, clipS2], h.1, h.2.1, h.2.2.2 (by simp [clipS2])⟩

theorem audioSegLen_eq_end (env : Env) (c : Clip) (a : AudioSeg)
    (ha : processAudioClip env c = some a) (hsp : 0 < c.speed)
    (hnn : 0 ≤ c.start_time) (hms : (c.start_time * 1000).den = 1) :
    audioSegLen a = c.end_time := by
  unfold processAudioClip at ha
  split_ifs at ha
  cases ha
  have hq : ((c.start_time * 1000).num : ℚ) = c.start_time * 1000 :=
    Rat.coe_int_num_of_den_eq_one hms
  have hq0 : (0 : ℚ) ≤ c.start_time * 1000 := by positivity
  have hfl : (⌊c.start_time * 1000⌋ : ℚ) = c.start_time * 1000 := by
    conv_lhs => rw [← hq, Int.floor_intCast]
    exact hq
  have htr : qtrunc (c.start_time * 1000) = ⌊c.start_time * 1000⌋ := by
    unfold qtrunc
    rw [if_pos hq0]
  have hdelay :
      (if 0 < qtrunc (c.start_time * 1000)
        then ((qtrunc (c.start_time * 1000) : ℚ)) / 1000 else 0) = c.start_time := by
    rw [htr]
    split_ifs with hpos
    · rw [hfl]
      field_simp
    · have h1 : (⌊c.start_time * 1000⌋ : ℚ) ≤ 0 := by
        exact_mod_cast Int.cast_nonpos.mpr (not_lt.mp hpos)
      have h2 : c.start_time * 1000 ≤ 0 := by rw [← hfl]; exact h1
      have : c.start_time * 1000 = 0 := le_antisymm h2 hq0
      have : c.start_time = 0 := by linarith
      rw [this]
  have htrim :
      (if c.speed = 1 then (c.end_time - c.start_time) * c.speed
        else ((c.end_time - c.start_time) * c.speed) / c.speed) =
        c.end_time - c.start_time := by
    split_ifs with h1
    · rw [h1, mul_one]
    · exact mul_div_cancel_right₀ _ (ne_of_gt hsp)
  unfold audioSegLen
  simp only []
  rw [hdelay, htrim]  -- goal shape: delay + trim = end
  ring

/-- C5: zero surviving audio segments attach no audio stream; exactly
one is used directly with no amix; two or more are combined by amix
with duration=longest, i.e. the mixed length is the maximum of the
input lengths; and for two clips with nonnegative whole-millisecond
start times the mixed length is the later of the two absolute end
times.  (For fractional-millisecond start times the adelay truncation
makes the last equality fail; see the counterexample.) -/
theorem C5_audio_mixing (env : Env) (p : Project) (c1 c2 : Clip) (a1 a2 : AudioSeg) :
    (audioOverlays env p = [] → finalAudio (audioOverlays env p) = none) ∧
    (audioOverlays env p = [] → ∀ s ∈ renderStreams env p, s.2 = none) ∧
    (∀ a, audioOverlays env p = [a] → finalAudio (audioOverlays env p) = some (.single a)) ∧
    (∀ a b l, audioOverlays env p = a :: b :: l →
      finalAudio (audioOverlays env p) = some (.amix (a :: b :: l)) ∧
      mixedLen (.amix (a :: b :: l)) = foldMax (audioSegLen a) ((b :: l).map audioSegLen)) ∧
    (processAudioClip env c1 = some a1 → processAudioClip env c2 = some a2 →
      0 < c1.speed → 0 < c2.speed → 0 ≤ c1.start_time → 0 ≤ c2.start_time →
      (c1.start_time * 1000).den = 1 → (c2.start_time * 1000).den = 1 →
      mixedLen (.amix [a1, a2]) = max c1.end_time c2.end_time) := by
  refine ⟨?_, ?_, ?_, ?_, ?_⟩
  · intro h
    rw [h]
    rfl
  · intro h s hs
    unfold renderStreams at hs
    cases hmv : mainVideo env p with
    | none => rw [hmv] at hs; cases hs
    | some v =>
      rw [hmv, h] at hs
      injection hs with hs2
      rw [← hs2]
      rfl
  · intro a h
    rw [h]
    rfl
  · intro a b l h
    refine ⟨by rw [h]; rfl, ?_⟩
    simp [mixedLen, foldMax, List.foldl_map]
  · intro ha1 ha2 hs1 hs2 hn1 hn2 hm1 hm2
    have e1 := audioSegLen_eq_end env c1 a1 ha1 hs1 hn1 hm1
    have e2 := audioSegLen_eq_end env c2 a2 ha2 hs2 hn2 hm2
    simp [mixedLen, e1, e2, qmax_eq_max]

/-- C5 counterexample: two overlapping audio clips at [0,1) and
[0.0005, 1.5).  delay_ms = int(0.0005 * 1000) = 0, so the second
processed segment is not shifted at all and the amix length is
1.4995s = 2999/2000, not the later absolute end time 1.5s.  The
claim's "the mixed length equals the later of their absolute end
times" is false on the code for fractional-millisecond starts. -/
theorem C5_counterexample :
    (finalAudio (audioOverlays envXY projXY)).map mixedLen = some (2999/2000) ∧
    maxEndAll projXY = 3/2 ∧
    clipX0.start_time < clipYfrac.end_time ∧ clipYfrac.start_time < clipX0.end_time ∧
    (2999/2000 : ℚ) ≠ 3/2 := by
  refine ⟨?_, ?_, ?_, ?_, by norm_num⟩
  · norm_num +decide [audioOverlays, audioTracksOf, processAudioClip, finalAudio, mixedLen,
      audioSegLen, qtrunc, qmax, envXY, projXY, clipX0, clipYfrac, List.filter,
      List.filterMap_cons, List.filterMap_nil]
  · norm_num +decide [maxEndAll, projXY, clipX0, clipYfrac, qmax]
  · norm_num [clipX0, clipYfrac]
  · norm_num [clipX0, clipYfrac]

theorem C5_audio_mixing_witness :
    audioOverlays envXY projXYw = [audioSegX, audioSegYw] ∧
    finalAudio (audioOverlays envXY projXYw) = some (.amix [audioSegX, audioSegYw]) ∧
    mixedLen (.amix [audioSegX, audioSegYw]) = max clipX0.end_time clipYhalf.end_time ∧
    max clipX0.end_time clipYhalf.end_time = 3/2 := by
  have hov : audioOverlays envXY projXYw = [audioSegX, audioSegYw] := by
    norm_num +decide [audioOverlays, audioTracksOf, processAudioClip, qtrunc, envXY,
      projXYw, clipX0, clipYhalf, audioSegX, audioSegYw, List.filter,
      List.filterMap_cons, List.filterMap_nil]
  have hx : processAudioClip envXY clipX0 = some audioSegX := by
    norm_num +decide [processAudioClip, qtrunc, envXY, clipX0, audioSegX]
  have hy : processAudioClip envXY clipYhalf = some audioSegYw := by
    norm_num +decide [processAudioClip, qtrunc, envXY, clipYhalf, audioSegYw]
  have h := C5_audio_mixing envXY projXYw clipX0 clipYhalf audioSegX audioSegYw
  refine ⟨hov, ((h.2.2.2.1 audioSegX audioSegYw [] hov).1), ?_, ?_⟩
  · exact h.2.2.2.2 hx hy (by norm_num [clipX0]) (by norm_num [clipYhalf])
      (by norm_num [clipX0]) (by norm_num [clipYhalf])
      (by norm_num [clipX0]) (by norm_num [clipYhalf])
  · rw [max_eq_right (by norm_num [clipX0, clipYhalf] : clipX0.end_time ≤ clipYhalf.end_time)]
    norm_num [clipYhalf]

instance : RightCommutative qmax :=
  ⟨fun b a1 a2 => by simp only [qmax_eq_max]; exact sup_right_comm b a1 a2⟩

theorem foldMax_append (m : ℚ) (l1 l2 : List ℚ) :
    foldMax m (l1 ++ l2) = foldMax (foldMax m l1) l2 := by
  simp [foldMax, List.foldl_append]

theorem foldMax_perm (m : ℚ) {l1 l2 : List ℚ} (h : l1.Perm l2) :
    foldMax m l1 = foldMax m l2 :=
  h.foldl_eq m

theorem clipsFold_eq (cs : List Clip) (m : ℚ) :
    cs.foldl (fun m c => qmax m c.end_time) m = foldMax m (cs.map (fun c => c.end_time)) := by
  simp [foldMax, List.foldl_map]

theorem tracksFold_eq (ts : List Track) (m : ℚ) :
    ts.foldl (fun m tr => tr.clips.foldl (fun m c => qmax m c.end_time) m) m
      = foldMax m (trackEnds ts) := by
  induction ts generalizing m with
  | nil => rfl
  | cons t ts ih =>
    simp only [List.foldl_cons, trackEnds, List.flatMap_cons]
    rw [foldMax_append, clipsFold_eq]
    exact ih _

theorem gapSegs_eq_nil_of_eq (t : ℚ) (c : Clip) (h : c.start_time = t) :
    gapSegs t c = [] := by
  unfold gapSegs
  rw [if_neg]
  simp [h]

theorem gapSegs_eq_filler (t : ℚ) (c : Clip) (h : t + 0.01 < c.start_time) :
    gapSegs t c = [.filler (c.start_time - t)] := by
  unfold gapSegs
  rw [if_pos (by linarith), if_pos (by linarith)]

theorem goodChain_cons (env : Env) (t : ℚ) (c : Clip) (cs : List Clip)
    (h : goodChain env t (c :: cs) = true) :
    c.source_path ∈ env.files ∧ 0 < c.speed ∧ c.start_time < c.end_time ∧
    (c.start_time = t ∨ t + 0.01 < c.start_time) ∧ goodChain env c.end_time cs = true := by
  unfold goodChain at h
  simp only [Bool.and_eq_true, Bool.or_eq_true, decide_eq_true_eq] at h
  tauto

theorem processClips_chain (env : Env) :
    ∀ (cs : List Clip) (t : ℚ), goodChain env t cs = true →
    (processClips env t cs).1 = lastEnd t cs ∧
    ((processClips env t cs).2.map vsegDur).sum = lastEnd t cs - t ∧
    ∀ sg ∈ (processClips env t cs).2, 0 < vsegDur sg := by
  intro cs
  induction cs with
  | nil =>
    intro t _
    refine ⟨rfl, by simp [processClips, lastEnd], by simp [processClips]⟩
  | cons c cs ih =>
    intro t h
    obtain ⟨hmem, hsp, hlt, hstart, hrest⟩ := goodChain_cons env t c cs h
    obtain ⟨ih1, ih2, ih3⟩ := ih c.end_time hrest
    have hdur : vsegDur (clipVSeg c) = c.end_time - c.start_time := by
      simp [clipVSeg, vsegDur, mul_div_cancel_right₀ _ (ne_of_gt hsp)]
    have hP : processClips env t (c :: cs) =
        ((processClips env c.end_time cs).1,
          gapSegs t c ++ clipVSeg c :: (processClips env c.end_time cs).2) := by
      simp [processClips, hmem]
    rw [hP]
    simp only [lastEnd]
    refine ⟨ih1, ?_, ?_⟩
    · rcases hstart with heq | hgap
      · rw [gapSegs_eq_nil_of_eq t c heq]
        simp only [List.nil_append, List.map_cons, List.sum_cons, hdur, ih2]
        rw [heq]
        ring
      · rw [gapSegs_eq_filler t c hgap]
        have hfil : vsegDur (VSeg.filler (c.start_time - t)) = c.start_time - t := rfl
        simp only [List.cons_append, List.nil_append, List.map_cons, List.sum_cons,
          hdur, ih2, hfil]
        ring
    · intro sg hsg
      rcases hstart with heq | hgap
      · rw [gapSegs_eq_nil_of_eq t c heq] at hsg
        simp only [List.nil_append, List.mem_cons] at hsg
        rcases hsg with rfl | hsg
        · rw [hdur]; linarith
        · exact ih3 sg hsg
      · rw [gapSegs_eq_filler t c hgap] at hsg
        simp only [List.cons_append, List.nil_append, List.mem_cons] at hsg
        rcases hsg with rfl | rfl | hsg
        · show (0 : ℚ) < c.start_time - t
          linarith
        · rw [hdur]; linarith
        · exact ih3 sg hsg

theorem lastEnd_ge (env : Env) :
    ∀ (cs : List Clip) (t : ℚ), goodChain env t cs = true → t ≤ lastEnd t cs := by
  intro cs
  induction cs with
  | nil => intro t _; exact le_refl t
  | cons c cs ih =>
    intro t h
    obtain ⟨_, _, hlt, hstart, hrest⟩ := goodChain_cons env t c cs h
    have h1 : c.end_time ≤ lastEnd c.end_time cs := ih c.end_time hrest
    have h2 : t ≤ c.end_time := by
      rcases hstart with heq | hgap <;> linarith
    exact le_trans h2 (by simpa [lastEnd] using h1)

theorem end_le_lastEnd (env : Env) :
    ∀ (cs : List Clip) (t : ℚ), goodChain env t cs = true →
    ∀ c ∈ cs, c.end_time ≤ lastEnd t cs := by
  intro cs
  induction cs with
  | nil => intro t _ c hc; cases hc
  | cons c cs ih =>
    intro t h d hd
    obtain ⟨_, _, _, _, hrest⟩ := goodChain_cons env t c cs h
    rcases List.mem_cons.mp hd with rfl | hd
    · simpa [lastEnd] using lastEnd_ge env cs d.end_time hrest
    · simpa [lastEnd] using ih c.end_time hrest d hd

theorem findVideo_eq (pre post : List Track) (vtr : Track)
    (hpre : ∀ t ∈ pre, t.type = "audio" ∨ t.type = "av") (hv : vtr.type = "video") :
    (pre ++ vtr :: post).find? (fun t => t.type == "video") = some vtr := by
  induction pre with
  | nil =>
    simp only [List.nil_append]
    exact List.find?_cons_of_pos _ (by simp [hv])
  | cons t pre ih =>
    have hne : (t.type == "video") = false := by
      rcases hpre t (List.mem_cons_self t pre) with h | h <;> simp [h]
    simp only [List.cons_append]
    rw [List.find?_cons_of_neg _ (by simp [hne])]
    exact ih (fun u hu => hpre u (List.mem_cons_of_mem t hu))

theorem audioFilter_eq (pre post : List Track) (vtr : Track)
    (hpre : ∀ t ∈ pre, t.type = "audio" ∨ t.type = "av") (hv : vtr.type = "video")
    (hpost : ∀ t ∈ post, t.type = "audio" ∨ t.type = "av") :
    (pre ++ vtr :: post).filter (fun t => t.type == "audio" || t.type == "av") =
      pre ++ post := by
  rw [List.filter_append, List.filter_cons]
  have hvno : ((vtr.type == "audio" || vtr.type == "av") = true) = False := by
    simp [hv]
  rw [if_neg (by simp [hv])]
  congr 1
  · exact List.filter_eq_self.mpr (fun t ht => by
      rcases hpre t ht with h | h <;> simp [h])
  · exact List.filter_eq_self.mpr (fun t ht => by
      rcases hpost t ht with h | h <;> simp [h])

theorem maxDuration_eq_maxEndAll (p : Project) (pre post : List Track) (vtr : Track)
    (hp : p.tracks = pre ++ vtr :: post)
    (hpre : ∀ t ∈ pre, t.type = "audio" ∨ t.type = "av") (hv : vtr.type = "video")
    (hpost : ∀ t ∈ post, t.type = "audio" ∨ t.type = "av") :
    maxDuration p = maxEndAll p := by
  have hfind : videoTrack p = some vtr := by
    unfold videoTrack
    rw [hp]
    exact findVideo_eq pre post vtr hpre hv
  have hfilter : audioTracksOf p = pre ++ post := by
    unfold audioTracksOf
    rw [hp]
    exact audioFilter_eq pre post vtr hpre hv hpost
  have hvend : videoMaxEnd p = foldMax 0 ((sortedClips vtr).map (fun c => c.end_time)) := by
    unfold videoMaxEnd
    rw [hfind]
    show (sortedClips vtr).foldl (fun m c => qmax m c.end_time) 0 = _
    rw [clipsFold_eq]
  have hperm : ((sortedClips vtr).map (fun c => c.end_time)).Perm
      (vtr.clips.map (fun c => c.end_time)) :=
    (List.perm_insertionSort _ _).map _
  unfold maxDuration
  rw [hfilter, tracksFold_eq, hvend, ← foldMax_append]
  unfold maxEndAll
  rw [hp, tracksFold_eq]
  apply foldMax_perm
  have h1 : trackEnds (pre ++ post) = trackEnds pre ++ trackEnds post := by
    simp [trackEnds, List.flatMap_append]
  have h2 : trackEnds (pre ++ vtr :: post) =
      trackEnds pre ++ (vtr.clips.map (fun c => c.end_time) ++ trackEnds post) := by
    simp [trackEnds, List.flatMap_append]
  rw [h1, h2, ← List.append_assoc, ← List.append_assoc]
  exact ((hperm.append_right _).trans List.perm_append_comm).append_right _

theorem mainVideo_chain (env : Env) (p : Project) (pre post : List Track) (vtr : Track)
    (hp : p.tracks = pre ++ vtr :: post)
    (hpre : ∀ t ∈ pre, t.type = "audio" ∨ t.type = "av") (hv : vtr.type = "video")
    (hne : vtr.clips ≠ [])
    (hchain : goodChain env 0 (sortedClips vtr) = true)
    (htail : maxDuration p = lastEnd 0 (sortedClips vtr) ∨
      lastEnd 0 (sortedClips vtr) + 0.01 < maxDuration p) :
    ∃ segs, mainVideo env p = some segs ∧
      (segs.map vsegDur).sum = maxDuration p ∧ ∀ sg ∈ segs, 0 < vsegDur sg := by
  have hfind : videoTrack p = some vtr := by
    unfold videoTrack
    rw [hp]
    exact findVideo_eq pre post vtr hpre hv
  have hparts : videoParts env p = processClips env 0 (sortedClips vtr) := by
    unfold videoParts
    rw [hfind]
    show (if vtr.clips = [] then ((0 : ℚ), ([] : List VSeg))
      else processClips env 0 (sortedClips vtr)) = _
    rw [if_neg hne]
  obtain ⟨h1, h2, h3⟩ := processClips_chain env (sortedClips vtr) 0 hchain
  have hsne : sortedClips vtr ≠ [] := by
    intro hnil
    apply hne
    have hpm := List.perm_insertionSort
      (fun a b : Clip => a.start_time ≤ b.start_time) vtr.clips
    rw [show List.insertionSort (fun a b : Clip => a.start_time ≤ b.start_time) vtr.clips
        = sortedClips vtr from rfl, hnil] at hpm
    exact hpm.symm.eq_nil
  have hpne : (processClips env 0 (sortedClips vtr)).2 ≠ [] := by
    cases hcs : sortedClips vtr with
    | nil => exact absurd hcs hsne
    | cons c cs =>
      obtain ⟨hmem, _⟩ := goodChain_cons env 0 c cs (hcs ▸ hchain)
      simp [processClips, hmem]
  have hmv : mainVideo env p = some ((processClips env 0 (sortedClips vtr)).2 ++
      tailFiller (processClips env 0 (sortedClips vtr)).1 (maxDuration p)) := by
    unfold mainVideo
    rw [hparts, if_pos hpne]
  refine ⟨_, hmv, ?_, ?_⟩
  · rw [List.map_append, List.sum_append, h2, h1]
    rcases htail with heq | hlt
    · have : tailFiller (lastEnd 0 (sortedClips vtr)) (maxDuration p) = [] := by
        unfold tailFiller
        rw [heq, if_neg (lt_irrefl _)]
      rw [this]
      simp [heq]
    · have : tailFiller (lastEnd 0 (sortedClips vtr)) (maxDuration p) =
          [.filler (maxDuration p - lastEnd 0 (sortedClips vtr))] := by
        unfold tailFiller
        rw [if_pos (by linarith), if_pos (by linarith)]
      rw [this]
      show lastEnd 0 (sortedClips vtr) - 0 +
        (vsegDur (.filler (maxDuration p - lastEnd 0 (sortedClips vtr))) + 0) = _
      show lastEnd 0 (sortedClips vtr) - 0 +
        (maxDuration p - lastEnd 0 (sortedClips vtr) + 0) = _
      ring
  · intro sg hsg
    rcases List.mem_append.mp hsg with hin | hin
    · exact h3 sg hin
    · rw [h1] at hin
      rcases htail with heq | hlt
      · rw [show tailFiller (lastEnd 0 (sortedClips vtr)) (maxDuration p) = [] by
          unfold tailFiller; rw [heq, if_neg (lt_irrefl _)]] at hin
        cases hin
      · rw [show tailFiller (lastEnd 0 (sortedClips vtr)) (maxDuration p) =
            [.filler (maxDuration p - lastEnd 0 (sortedClips vtr))] by
          unfold tailFiller; rw [if_pos (by linarith), if_pos (by linarith)]] at hin
        rcases List.mem_singleton.mp hin with rfl
        show (0 : ℚ) < maxDuration p - lastEnd 0 (sortedClips vtr)
        linarith

/-- C1 counterexample: a well-formed video track (kinds in
{video,audio,av}, end_time > start_time everywhere, both sources
present) with clips [0,1) and [1.005,2): the 0.005s gap is below the
0.01s threshold, so no filler is inserted and the rendered duration is
1.995s, not the maximum end_time 2s. -/
theorem C1_counterexample :
    renderedDuration envAB projGap = some (399/200) ∧
    maxEndAll projGap = 2 ∧
    ((399 : ℚ)/200) ≠ 2 := by
  refine ⟨?_, ?_, by norm_num⟩
  · norm_num +decide [renderedDuration, mainVideo, videoParts, videoTrack, sortedClips,
      processClips, maxDuration, videoMaxEnd, audioTracksOf, gapSegs, clipVSeg, vsegDur,
      tailFiller, qmax, projGap, envAB, clipA1, clipBgap, List.insertionSort,
      List.orderedInsert, List.find?, List.filter]
  · norm_num +decide [maxEndAll, projGap, clipA1, clipBgap, qmax]

/-- C1 amended: for a project with exactly one video-kind track (all
other tracks of kind audio/av), whose sorted video clips form a good
chain from 0 (sources present, positive speeds, end > start, and each
clip starting exactly at the cursor or more than 0.01s after it) and
whose audio tail either coincides with the video end or exceeds it by
more than 0.01s, the rendered video duration equals the maximum
end_time over all clips in all tracks. -/
theorem C1_duration_eq_max_end (env : Env) (p : Project) (pre post : List Track)
    (vtr : Track)
    (hp : p.tracks = pre ++ vtr :: post)
    (hpre : ∀ t ∈ pre, t.type = "audio" ∨ t.type = "av") (hv : vtr.type = "video")
    (hpost : ∀ t ∈ post, t.type = "audio" ∨ t.type = "av")
    (hne : vtr.clips ≠ [])
    (hchain : goodChain env 0 (sortedClips vtr) = true)
    (htail : maxDuration p = lastEnd 0 (sortedClips vtr) ∨
      lastEnd 0 (sortedClips vtr) + 0.01 < maxDuration p) :
    renderedDuration env p = some (maxEndAll p) := by
  obtain ⟨segs, hmv, hsum, _⟩ := mainVideo_chain env p pre post vtr hp hpre hv hne hchain htail
  unfold renderedDuration
  rw [hmv]
  show some ((segs.map vsegDur).sum) = some (maxEndAll p)
  rw [hsum, maxDuration_eq_maxEndAll p pre post vtr hp hpre hv hpost]

theorem C1_duration_eq_max_end_witness :
    renderedDuration envAB projW = some (maxEndAll projW) ∧ maxEndAll projW = 3 := by
  constructor
  · refine C1_duration_eq_max_end envAB projW [] [] trackW rfl (by simp) rfl (by simp)
      (by simp [trackW]) ?_ ?_
    · norm_num +decide [goodChain, sortedClips, trackW, clipA1, clipB3, envAB,
        List.insertionSort, List.orderedInsert]
    · left
      norm_num +decide [maxDuration, videoMaxEnd, videoTrack, audioTracksOf, sortedClips,
        lastEnd, qmax, projW, trackW, clipA1, clipB3, List.insertionSort,
        List.orderedInsert, List.find?, List.filter]
  · norm_num +decide [maxEndAll, projW, trackW, clipA1, clipB3, qmax]

/-- C2 counterexample: the claim includes the missing-source case, but
skipping a clip does not advance the cursor while its gap filler was
already emitted: with clip A [2,5) missing and clip B [6,8) present,
the emitted segments are filler(2), filler(6), B(2) -- total 10s
against an effective duration of 8s, so the sequence neither sums to
the effective duration nor covers [0,8) without overlap. -/
theorem C2_counterexample :
    (mainVideo envMiss projMiss).map (fun segs => (segs.map vsegDur).sum) = some 10 ∧
    maxEndAll projMiss = 8 ∧
    ((10 : ℚ) ≠ 8) := by
  refine ⟨?_, ?_, by norm_num⟩
  · norm_num +decide [mainVideo, videoParts, videoTrack, sortedClips, processClips,
      maxDuration, videoMaxEnd, audioTracksOf, gapSegs, clipVSeg, vsegDur, tailFiller,
      qmax, projMiss, envMiss, clipMa, clipMb, List.insertionSort, List.orderedInsert,
      List.find?, List.filter]
  · norm_num +decide [maxEndAll, projMiss, clipMa, clipMb, qmax]

/-- C2 amended: under the same good-chain conditions as C1 (in
particular every clip's source file present), the emitted video
segments have positive durations summing exactly to the effective
duration, i.e. their concatenation covers [0, effective_duration)
contiguously; when a source file is missing the clip is skipped but the
compiled sequence can over-cover the timeline (see the
counterexample). -/
theorem C2_video_cover (env : Env) (p : Project) (pre post : List Track) (vtr : Track)
    (hp : p.tracks = pre ++ vtr :: post)
    (hpre : ∀ t ∈ pre, t.type = "audio" ∨ t.type = "av") (hv : vtr.type = "video")
    (hpost : ∀ t ∈ post, t.type = "audio" ∨ t.type = "av")
    (hne : vtr.clips ≠ [])
    (hchain : goodChain env 0 (sortedClips vtr) = true)
    (htail : maxDuration p = lastEnd 0 (sortedClips vtr) ∨
      lastEnd 0 (sortedClips vtr) + 0.01 < maxDuration p) :
    ∃ segs, mainVideo env p = some segs ∧
      (segs.map vsegDur).sum = maxEndAll p ∧ ∀ sg ∈ segs, 0 < vsegDur sg := by
  obtain ⟨segs, hmv, hsum, hpos⟩ :=
    mainVideo_chain env p pre post vtr hp hpre hv hne hchain htail
  exact ⟨segs, hmv,
    hsum.trans (maxDuration_eq_maxEndAll p pre post vtr hp hpre hv hpost), hpos⟩

theorem C2_video_cover_witness :
    ∃ segs, mainVideo envAB projW = some segs ∧
      (segs.map vsegDur).sum = maxEndAll projW ∧ ∀ sg ∈ segs, 0 < vsegDur sg := by
  refine C2_video_cover envAB projW [] [] trackW rfl (by simp) rfl (by simp)
    (by simp [trackW]) ?_ ?_
  · norm_num +decide [goodChain, sortedClips, trackW, clipA1, clipB3, envAB,
      List.insertionSort, List.orderedInsert]
  · left
    norm_num +decide [maxDuration, videoMaxEnd, videoTrack, audioTracksOf, sortedClips,
      lastEnd, qmax, projW, trackW, clipA1, clipB3, List.insertionSort,
      List.orderedInsert, List.find?, List.filter]

/-- C7 counterexample: the code computes the sample count with int()
(truncation), not round().  For a horizontal main line of Euclidean
pixel length 495 and width 9, length/(width*0.8) = 68.75: the code
yields max(10, 68) = 68 samples while the claimed formula
max(10, round(length/(width*0.8))) yields 69. -/
theorem C7_counterexample :
    Real.sqrt (((pxX shapeW.x2 - pxX shapeW.x1 : ℤ) : ℝ)^2 +
      ((pxY shapeW.y2 - pxY shapeW.y1 : ℤ) : ℝ)^2) = 495 ∧
    shapeW.width = 9 ∧
    (shapeSegs shapeW).map (fun r => r.samples) = [68] ∧
    specNumSegments 495 9 = 69 ∧
    (68 : ℤ) ≠ 69 := by
  refine ⟨?_, rfl, ?_, ?_, by norm_num⟩
  · rw [show (pxX shapeW.x2 - pxX shapeW.x1 : ℤ) = 495 by norm_num [pxX, qtrunc, shapeW],
        show (pxY shapeW.y2 - pxY shapeW.y1 : ℤ) = 0 by norm_num [pxY, qtrunc, shapeW]]
    rw [show ((495 : ℤ) : ℝ)^2 + ((0 : ℤ) : ℝ)^2 = 495^2 by norm_num]
    exact Real.sqrt_sq (by norm_num)
  · have h1 : shapeSegs shapeW = [mainRaster shapeW] := by
      unfold shapeSegs
      rw [if_neg (by simp [shapeW])]
    rw [h1]
    have h2 : (mainRaster shapeW).samples = numSegments 495 0 9 := by
      unfold mainRaster
      norm_num [pxX, pxY, qtrunc, shapeW]
    simp only [List.map_cons, List.map_nil, h2]
    unfold numSegments
    norm_num
  · unfold specNumSegments
    rw [round_eq]
    norm_num

/-- C7 amended: for every shape endpoint pair (pixel deltas dx, dy) and
positive width w, the number of rasterization steps of the main line is
max(10, floor(length / (width * 0.8))) -- the floor (Python int()
truncation of a nonnegative value), not the rounding, of the ratio --
where length is the Euclidean pixel length. -/
theorem C7_num_segments (dx dy : ℤ) (w : ℕ) (hw : 0 < w) :
    (numSegments dx dy w : ℤ) =
      max 10 ⌊Real.sqrt (((dx : ℝ))^2 + ((dy : ℝ))^2) / ((w : ℝ) * (8/10))⌋ := by
  have hN : ((dx : ℝ))^2 + ((dy : ℝ))^2 = ((dx.natAbs^2 + dy.natAbs^2 : ℕ) : ℝ) := by
    push_cast
    rw [Int.cast_natAbs, Int.cast_natAbs]
    simp [sq_abs]
  set N : ℕ := dx.natAbs^2 + dy.natAbs^2 with hNdef
  have hw' : ((w : ℝ)) ≠ 0 := by positivity
  have key : Real.sqrt ((N : ℝ)) / ((w : ℝ) * (8/10)) =
      Real.sqrt (((100 * N : ℕ) : ℝ)) / (((8 * w : ℕ) : ℝ)) := by
    push_cast
    rw [show (100 : ℝ) * N = 10^2 * N by ring,
        Real.sqrt_mul (by positivity) (N : ℝ),
        Real.sqrt_sq (by norm_num : (0:ℝ) ≤ 10)]
    field_simp
    ring
  rw [hN, key]
  have hnn : 0 ≤ Real.sqrt (((100 * N : ℕ) : ℝ)) / (((8 * w : ℕ) : ℝ)) := by positivity
  rw [← Int.natCast_floor_eq_floor hnn]
  rw [Nat.floor_div_nat (Real.sqrt (((100 * N : ℕ) : ℝ))) (8 * w)]
  rw [Real.nat_floor_real_sqrt_eq_nat_sqrt]
  unfold numSegments
  push_cast
  rfl

theorem C7_num_segments_witness :
    0 < 1 ∧ (numSegments 3 4 1 : ℤ) =
      max 10 ⌊Real.sqrt (((3 : ℤ) : ℝ)^2 + (((4 : ℤ)) : ℝ)^2) / (((1 : ℕ) : ℝ) * (8/10))⌋ :=
  ⟨Nat.one_pos, C7_num_segments 3 4 1 Nat.one_pos⟩

/-- C8: a shape overlay whose kind is not "arrow" (in particular kind
"line") draws only the main rasterized segment; kind "arrow"
additionally draws exactly two strokes, each rasterized with a fixed
sample count of 8, starting at the terminal endpoint and ending at the
integer truncation of the point displaced by width*5 in direction
angle plus or minus pi*0.8; the ideal displacement has Euclidean length exactly
width*5, its direction is the rotation of the main direction by the
angle offset (cosine/sine addition formulas), and pi*0.8 radians is
exactly 144 degrees. -/
theorem C8_arrowheads (s : ShapeOverlay) :
    (s.type ≠ "arrow" → shapeSegs s = [mainRaster s]) ∧
    (s.type = "arrow" →
      shapeSegs s = [mainRaster s, arrowRaster s (Real.pi * 0.8),
        arrowRaster s (-(Real.pi * 0.8))]) ∧
    (∀ rot : ℝ, (arrowRaster s rot).samples = 8 ∧
      (arrowRaster s rot).x1 = pxX s.x2 ∧ (arrowRaster s rot).y1 = pxY s.y2 ∧
      (arrowRaster s rot).x2 = rtrunc ((pxX s.x2 : ℝ) + ((s.width : ℝ) * 5) *
        Real.cos (shapeAngle (pxX s.x2 - pxX s.x1) (pxY s.y2 - pxY s.y1) + rot)) ∧
      (arrowRaster s rot).y2 = rtrunc ((pxY s.y2 : ℝ) + ((s.width : ℝ) * 5) *
        Real.sin (shapeAngle (pxX s.x2 - pxX s.x1) (pxY s.y2 - pxY s.y1) + rot))) ∧
    (∀ rot : ℝ,
      Real.sqrt ((((s.width : ℝ) * 5) *
          Real.cos (shapeAngle (pxX s.x2 - pxX s.x1) (pxY s.y2 - pxY s.y1) + rot))^2 +
        (((s.width : ℝ) * 5) *
          Real.sin (shapeAngle (pxX s.x2 - pxX s.x1) (pxY s.y2 - pxY s.y1) + rot))^2) =
        (s.width : ℝ) * 5) ∧
    (∀ θ rot : ℝ, Real.cos (θ + rot) = Real.cos θ * Real.cos rot - Real.sin θ * Real.sin rot ∧
      Real.sin (θ + rot) = Real.sin θ * Real.cos rot + Real.cos θ * Real.sin rot) ∧
    Real.pi * 0.8 = 144 * (Real.pi / 180) := by
  refine ⟨?_, ?_, ?_, ?_, ?_, ?_⟩
  · intro h
    unfold shapeSegs
    rw [if_neg h]
  · intro h
    unfold shapeSegs
    rw [if_pos h]
  · intro rot
    exact ⟨rfl, rfl, rfl, rfl, rfl⟩
  · intro rot
    set L : ℝ := (s.width : ℝ) * 5 with hL
    set α : ℝ := shapeAngle (pxX s.x2 - pxX s.x1) (pxY s.y2 - pxY s.y1) + rot
    have h1 : (L * Real.cos α)^2 + (L * Real.sin α)^2 = L^2 := by
      have := Real.sin_sq_add_cos_sq α
      nlinarith [this]
    rw [h1]
    exact Real.sqrt_sq (by positivity)
  · intro θ rot
    exact ⟨Real.cos_add θ rot, Real.sin_add θ rot⟩
  · rw [show (0.8 : ℝ) = 4/5 by norm_num]
    ring

theorem C8_arrowheads_witness :
    shapeSegs shapeLineW = [mainRaster shapeLineW] ∧
    shapeSegs shapeArrowW = [mainRaster shapeArrowW,
      arrowRaster shapeArrowW (Real.pi * 0.8), arrowRaster shapeArrowW (-(Real.pi * 0.8))] :=
  ⟨(C8_arrowheads shapeLineW).1 (by simp [shapeLineW]),
   (C8_arrowheads shapeArrowW).2.1 rfl⟩
